import Mathlib

namespace Kctl

/-!
Verification of the kctl RBAC risk classifier, token codec, exec stream
demultiplexer, scan coalescing, pod extractor and result repository,
shallowly embedded from the Go sources.
-/

/-! ### Risk levels (src/config/risk.go) -/

/-- `config.RiskLevel`: the six risk tiers. In Go these are strings;
we model them as an inductive and keep the string rendering separately. -/
inductive RiskLevel where
  | admin
  | critical
  | high
  | medium
  | low
  | riskNone
deriving DecidableEq, Repr

/-- `config.RiskLevelOrder`: ADMIN=0, CRITICAL=1, HIGH=2, MEDIUM=3, LOW=4, NONE=5. -/
def RiskLevelOrder : RiskLevel → Nat
  | .admin => 0
  | .critical => 1
  | .high => 2
  | .medium => 3
  | .low => 4
  | .riskNone => 5

/-- The Go string value of each `config.RiskLevel` constant. -/
def riskLevelString : RiskLevel → String
  | .admin => "ADMIN"
  | .critical => "CRITICAL"
  | .high => "HIGH"
  | .medium => "MEDIUM"
  | .low => "LOW"
  | .riskNone => "NONE"

/-- `types.PermissionCheck` (pkg/types): one RBAC probe with its outcome. -/
structure PermissionCheck where
  resource : String
  verb : String
  allowed : Bool
  group : String
  subresource : String
deriving DecidableEq, Repr

/-- `config.CriticalPermissions` (src/config/risk.go lines 174-186). -/
def CriticalPermissions : List (String × List String) :=
  [("*", ["*"]),
   ("secrets", ["get", "list", "watch", "create", "*"]),
   ("pods", ["create", "*"]),
   ("pods/exec", ["create", "*"]),
   ("clusterroles", ["create", "update", "patch", "bind", "escalate", "*"]),
   ("clusterrolebindings", ["create", "update", "patch", "*"]),
   ("roles", ["create", "update", "patch", "bind", "escalate", "*"]),
   ("rolebindings", ["create", "update", "patch", "*"]),
   ("serviceaccounts", ["create", "impersonate", "*"]),
   ("nodes", ["proxy", "*"]),
   ("nodes/proxy", ["create", "get", "*"])]

/-- `config.HighPermissions` (src/config/risk.go lines 189-199). -/
def HighPermissions : List (String × List String) :=
  [("configmaps", ["get", "list", "create", "update", "*"]),
   ("deployments", ["create", "update", "patch", "*"]),
   ("daemonsets", ["create", "update", "patch", "*"]),
   ("cronjobs", ["create", "update", "*"]),
   ("jobs", ["create", "*"]),
   ("pods/log", ["get", "*"]),
   ("persistentvolumeclaims", ["create", "*"]),
   ("persistentvolumes", ["create", "*"]),
   ("serviceaccounts/token", ["create", "*"])]

/-- `config.MediumPermissions` (src/config/risk.go lines 202-207). -/
def MediumPermissions : List (String × List String) :=
  [("services", ["create", "update", "*"]),
   ("endpoints", ["create", "update", "*"]),
   ("ingresses", ["create", "update", "*"]),
   ("networkpolicies", ["create", "update", "delete", "*"])]

/-- The resource key used by `CalculateRiskLevel`: the probe's resource,
with "/subresource" appended when a subresource is present. -/
def effectiveResource (p : PermissionCheck) : String :=
  if p.subresource ≠ "" then p.resource ++ "/" ++ p.subresource else p.resource

/-- The inner verb loop of `CalculateRiskLevel`: `v == p.Verb || v == "*"`. -/
def verbMatches (verbs : List String) (verb : String) : Bool :=
  verbs.any (fun v => v == verb || v == "*")

/-- One table lookup step of `CalculateRiskLevel` (map index + verb scan). -/
def tableMatches (table : List (String × List String)) (p : PermissionCheck) : Bool :=
  match table.lookup (effectiveResource p) with
  | some verbs => verbMatches verbs p.verb
  | none => false

/-- The per-probe test of the cluster-admin loop (risk.go lines 81-85). -/
def adminW (p : PermissionCheck) : Bool :=
  p.allowed && p.resource == "*" && p.verb == "*"

/-- The per-probe test of the CRITICAL loop (risk.go lines 88-109):
table hit, or wildcard resource. -/
def critW (p : PermissionCheck) : Bool :=
  p.allowed && (tableMatches CriticalPermissions p || p.resource == "*")

/-- The per-probe test of the HIGH loop (risk.go lines 112-129). -/
def highW (p : PermissionCheck) : Bool :=
  p.allowed && tableMatches HighPermissions p

/-- The per-probe test of the MEDIUM loop (risk.go lines 132-149). -/
def medW (p : PermissionCheck) : Bool :=
  p.allowed && tableMatches MediumPermissions p

/-- `rbac.CalculateRiskLevel` (src/internal/rbac/risk.go lines 79-159):
five sequential early-return scans over the probe list. -/
def CalculateRiskLevel (permissions : List PermissionCheck) : RiskLevel :=
  if permissions.any adminW then .admin
  else if permissions.any critW then .critical
  else if permissions.any highW then .high
  else if permissions.any medW then .medium
  else if permissions.any (fun p => p.allowed) then .low
  else .riskNone

/-- `rbac.IsClusterAdmin` (src/internal/rbac/risk.go lines 161-169). -/
def IsClusterAdmin (permissions : List PermissionCheck) : Bool :=
  permissions.any (fun p => p.allowed && p.resource == "*" && p.verb == "*")

/-! ### Spec-side probe predicates (spec section 4.5, decision steps 1-6) -/

/-- Spec step 1 witness: an allowed probe with `resource = "*"` and `verb = "*"`. -/
def AdminProbe (p : PermissionCheck) : Prop :=
  p.allowed = true ∧ p.resource = "*" ∧ p.verb = "*"

/-- Spec step 2 witness: an allowed probe matching the CRITICAL table
(resource with "/subresource" appended when present) or with wildcard resource. -/
def CriticalProbe (p : PermissionCheck) : Prop :=
  p.allowed = true ∧ (tableMatches CriticalPermissions p = true ∨ p.resource = "*")

/-- Spec step 3 witness: an allowed probe matching the HIGH table. -/
def HighProbe (p : PermissionCheck) : Prop :=
  p.allowed = true ∧ tableMatches HighPermissions p = true

/-- Spec step 4 witness: an allowed probe matching the MEDIUM table. -/
def MediumProbe (p : PermissionCheck) : Prop :=
  p.allowed = true ∧ tableMatches MediumPermissions p = true

/-! ### Monotonicity of the classifier (spec section 8 invariant 3) -/

/-! ### Token codec (pkg/token, src/unnamed/part_001) -/

/-- A shallow model of the JSON values produced by `json.Unmarshal` into
`map[string]interface{}`. Numbers are modelled as integers (the Unix-second
timestamps the codec reads). -/
inductive Json where
  | str : String → Json
  | num : Int → Json
  | jbool : Bool → Json
  | jnull : Json
  | arr : List Json → Json
  | obj : List (String × Json) → Json
deriving Repr

/-- `strings.Split` on a single-character separator (the ":" used by
`token.Parse`), written as structural recursion over the character list. -/
def splitChars (sep : Char) : List Char → List (List Char)
  | [] => [[]]
  | c :: rest =>
    if c = sep then [] :: splitChars sep rest
    else
      match splitChars sep rest with
      | [] => [[c]]
      | g :: gs => (c :: g) :: gs

/-- Go `strings.Split(s, sep)` for a one-character separator. -/
def stringSplit (s : String) (sep : Char) : List String :=
  (splitChars sep s.toList).map (fun cs => String.mk cs)

/-- `types.TokenInfo` (pkg/types). `time.Time` values are modelled as Unix
seconds; `Expiration = none` models the zero time. -/
structure TokenInfo where
  ServiceAccount : String
  Namespace : String
  Issuer : String
  Expiration : Option Int
  IsExpired : Bool
deriving DecidableEq, Repr

/-- The claim-extraction stage of `token.Parse` (src/unnamed/part_001
lines 51-94), applied to the JSON object decoded from the payload segment.
`now` stands for `time.Now()` in Unix seconds. -/
def parseClaims (now : Int) (claims : List (String × Json)) : TokenInfo :=
  let issuer : String :=
    match claims.lookup "iss" with
    | some (.str s) => s
    | _ => ""
  let expPair : Option Int × Bool :=
    match claims.lookup "exp" with
    | some (.num e) => (some e, decide (e < now))
    | _ => (none, false)
  let k8sPair : String × String :=
    match claims.lookup "kubernetes.io" with
    | some (.obj k8s) =>
      let ns : String :=
        match k8s.lookup "namespace" with
        | some (.str s) => s
        | _ => ""
      let sa : String :=
        match k8s.lookup "serviceaccount" with
        | some (.obj saObj) =>
          match saObj.lookup "name" with
          | some (.str n) => n
          | _ => ""
        | _ => ""
      (ns, sa)
    | _ => ("", "")
  let subPair : String × String :=
    if k8sPair.2 = "" then
      match claims.lookup "sub" with
      | some (.str sub) =>
        let parts := stringSplit sub ':'
        if parts.length ≥ 4 ∧ parts.getD 0 "" = "system" ∧
            parts.getD 1 "" = "serviceaccount" then
          (parts.getD 2 "", parts.getD 3 "")
        else k8sPair
      | _ => k8sPair
    else k8sPair
  { ServiceAccount := subPair.2
    Namespace := subPair.1
    Issuer := issuer
    Expiration := expPair.1
    IsExpired := expPair.2 }

/-! ### Exec output demultiplexing (src/internal/client, readExecOutput) -/

/-- Go `strings.Contains s sub`. -/
def containsSubstr (s sub : String) : Bool :=
  decide (sub.toList <:+: s.toList)

/-- `types.ExecStatus`: the JSON status object carried on channel 3. -/
structure ExecStatus where
  Status : String
  Message : String
  Reason : String
deriving DecidableEq, Repr

/-- `types.ExecResult`: accumulated stdout/stderr strings plus an error. -/
structure ExecResult where
  Stdout : String
  Stderr : String
  Error : String
deriving DecidableEq, Repr

/-- Go `string(bytes)` for the payload bytes of a frame (the claims concern
byte-transparent payloads, modelled one character per byte). -/
def byteStr (bs : List Nat) : String :=
  String.mk (bs.map fun b => Char.ofNat b)

/-- One iteration of the read loop of `readExecOutput`
(src/internal/client exec code, lines 646-689): the frame's first byte picks
the channel, the rest is payload. `decode` stands for `json.Unmarshal` into
`types.ExecStatus`. -/
def readExecStep (decode : String → Option ExecStatus)
    (result : ExecResult) (message : List Nat) : ExecResult :=
  match message with
  | [] => result
  | ch :: rest =>
    let data := byteStr rest
    if ch = 1 then { result with Stdout := result.Stdout ++ data }
    else if ch = 2 then { result with Stderr := result.Stderr ++ data }
    else if ch = 3 then
      match decode data with
      | some st =>
        if st.Status ≠ "Success" then
          { result with Error := if st.Message = "" then data else st.Message }
        else result
      | none => { result with Error := data }
    else result

/-- How the WebSocket read loop terminated. -/
inductive CloseKind where
  | normalClosure
  | goingAway
  | readErr (msg : String)
deriving DecidableEq, Repr

/-- `readExecOutput`: fold the read loop over the frames that arrived, then
apply the close handling (normal/going-away break silently; other read errors
are surfaced once unless the message contains "close"). -/
def readExecOutput (decode : String → Option ExecStatus)
    (frames : List (List Nat)) (close : CloseKind) : ExecResult :=
  let result := frames.foldl (readExecStep decode) ⟨"", "", ""⟩
  match close with
  | .normalClosure => result
  | .goingAway => result
  | .readErr msg =>
    if result.Error = "" ∧ containsSubstr msg "close" = false then
      { result with Error := msg }
    else result

/-- The payload concatenation of all frames on a given channel, in order. -/
def channelConcat (c : Nat) : List (List Nat) → String
  | [] => ""
  | m :: rest =>
    (if m.head? == some c then byteStr m.tail else "") ++ channelConcat c rest

/-! ### Scan results and coalescing (src/internal/console/commands/scan.go) -/

/-- `types.SecurityFlags` (pkg/types): pod-level security booleans. -/
structure SecurityFlags where
  Privileged : Bool := false
  AllowPrivilegeEscalation : Bool := false
  HasHostPath : Bool := false
  HasSecretMount : Bool := false
  HasSATokenMount : Bool := false
deriving DecidableEq, Repr

/-- `types.SASecurityFlags` (src/unnamed/part_000 lines 34-40). -/
structure SASecurityFlags where
  Privileged : Bool
  AllowPrivilegeEscalation : Bool
  HasHostPath : Bool
  HasSecretMount : Bool
  HasSATokenMount : Bool
deriving DecidableEq, Repr

/-- `types.SAPermission` (src/unnamed/part_000 lines 25-31). -/
structure SAPermission where
  Resource : String
  Verb : String
  Group : String
  Subresource : String
  Allowed : Bool
deriving DecidableEq, Repr

/-- `types.SAPodInfo` (src/unnamed/part_000 lines 43-47). -/
structure SAPodInfo where
  Name : String
  Namespace : String
  Container : String
deriving DecidableEq, Repr

/-- `types.ServiceAccountRecord` (src/unnamed/part_000 lines 8-22). The Go
struct stores Permissions/SecurityFlags/Pods as JSON strings; we model them
as the values they encode. `TokenExpiration` is the RFC3339 string of the
expiration time, modelled as the underlying seconds (`none` = empty string);
`CollectedAt` is Unix seconds; the autoincrement `ID` is elided. -/
structure ServiceAccountRecord where
  Name : String
  Namespace : String
  Token : String
  TokenExpiration : Option Int
  IsExpired : Bool
  RiskLevel : String
  Permissions : List SAPermission
  IsClusterAdmin : Bool
  SecurityFlags : SASecurityFlags
  Pods : List SAPodInfo
  CollectedAt : Int
  KubeletIP : String
deriving DecidableEq, Repr

/-- `commands.SATokenResult` (scan.go lines 57-69). The Go `*types.TokenInfo`
pointer is modelled as a value (nil only ever coincides with an errored
result, which `saveResults` skips before touching it). -/
structure SATokenResult where
  Namespace : String
  PodName : String
  Container : String
  ServiceAccount : String
  Token : String
  TokenInfo : TokenInfo
  Permissions : List PermissionCheck
  SecurityFlags : SecurityFlags
  RiskLevel : RiskLevel
  IsClusterAdmin : Bool
  Error : String
deriving DecidableEq, Repr

/-- The risk-classification tail of `scanPodToken` (scan.go lines 293-301):
the cluster-admin flag and the risk level recorded on a scan result. -/
def computeRisk (permissions : List PermissionCheck) : Bool × RiskLevel :=
  (IsClusterAdmin permissions,
   if IsClusterAdmin permissions then .admin else CalculateRiskLevel permissions)

/-- The allowed-permission projection of `saveResults` (scan.go lines 358-369). -/
def permsToSAPermissions (ps : List PermissionCheck) : List SAPermission :=
  (ps.filter fun p => p.allowed).map fun p =>
    { Resource := p.resource, Verb := p.verb, Group := p.group,
      Subresource := p.subresource, Allowed := p.allowed }

/-- The flag copy of `saveResults` (scan.go lines 373-379). -/
def toSASecurityFlags (f : SecurityFlags) : SASecurityFlags :=
  { Privileged := f.Privileged
    AllowPrivilegeEscalation := f.AllowPrivilegeEscalation
    HasHostPath := f.HasHostPath
    HasSecretMount := f.HasSecretMount
    HasSATokenMount := f.HasSATokenMount }

/-- The pod entry appended per scan result (scan.go lines 330-334, 383-387). -/
def podInfoOf (r : SATokenResult) : SAPodInfo :=
  { Name := r.PodName, Namespace := r.Namespace, Container := r.Container }

/-- The fresh record built by `saveResults` on first encounter of a key
(scan.go lines 338-391). -/
def mkRecord (kubeletIP : String) (now : Int) (result : SATokenResult) :
    ServiceAccountRecord :=
  { Name := result.ServiceAccount
    Namespace := result.TokenInfo.Namespace
    Token := result.Token
    TokenExpiration := result.TokenInfo.Expiration
    IsExpired :=
      match result.TokenInfo.Expiration with
      | some _ => result.TokenInfo.IsExpired
      | none => false
    RiskLevel :=
      if result.IsClusterAdmin then "ADMIN" else riskLevelString result.RiskLevel
    Permissions := permsToSAPermissions result.Permissions
    IsClusterAdmin := result.IsClusterAdmin
    SecurityFlags := toSASecurityFlags result.SecurityFlags
    Pods := [podInfoOf result]
    CollectedAt := now
    KubeletIP := kubeletIP }

/-- The skip test of `saveResults` (scan.go line 319, negated). -/
def validResult (r : SATokenResult) : Bool :=
  r.Error == "" && r.ServiceAccount != ""

/-- The coalescing key (scan.go line 323). -/
def resultKey (r : SATokenResult) : String :=
  r.TokenInfo.Namespace ++ "/" ++ r.ServiceAccount

/-- Replace the pod list of a record (the mutation on scan.go line 336). -/
def withPods (rec : ServiceAccountRecord) (pods : List SAPodInfo) :
    ServiceAccountRecord :=
  { rec with Pods := pods }

/-- In-place replacement of the value bound to a key (Go map assignment
through the stored record pointer). -/
def updateA {α : Type} : List (String × α) → String → α → List (String × α)
  | [], _, _ => []
  | (k', v') :: rest, k, v =>
    if k' = k then (k, v) :: rest else (k', v') :: updateA rest k v

/-- One loop iteration of `saveResults` (scan.go lines 318-393), over the
`saMap` modelled as an association list in first-insertion order. -/
def saveStep (kubeletIP : String) (now : Int)
    (m : List (String × ServiceAccountRecord)) (result : SATokenResult) :
    List (String × ServiceAccountRecord) :=
  if validResult result then
    let key := resultKey result
    match m.lookup key with
    | some existing =>
      updateA m key (withPods existing (existing.Pods ++ [podInfoOf result]))
    | none => m ++ [(key, mkRecord kubeletIP now result)]
  else m

/-- `saveResults` (scan.go lines 315-393): the coalesced SA map built from
the scan results. -/
def saveResults (kubeletIP : String) (now : Int)
    (results : List SATokenResult) : List (String × ServiceAccountRecord) :=
  results.foldl (saveStep kubeletIP now) []

/-- The results that contribute to the record with the given key. -/
def matchKey (key : String) (r : SATokenResult) : Bool :=
  validResult r && (resultKey r == key)

/-- Scenario pod `default/a` mounting SA `default/shared` (spec section 8,
scenario 6). -/
def cexResA : SATokenResult :=
  { Namespace := "default", PodName := "a", Container := "c0",
    ServiceAccount := "shared", Token := "tok",
    TokenInfo := ⟨"shared", "default", "", none, false⟩,
    Permissions := [], SecurityFlags := {}, RiskLevel := .riskNone,
    IsClusterAdmin := false, Error := "" }

/-- Scenario pod `default/b` mounting the same SA with the same token. -/
def cexResB : SATokenResult :=
  { cexResA with PodName := "b" }

/-- The single coalesced record expected for `default/shared`. -/
def cexRecShared : ServiceAccountRecord :=
  { Name := "shared", Namespace := "default", Token := "tok",
    TokenExpiration := none, IsExpired := false, RiskLevel := "NONE",
    Permissions := [], IsClusterAdmin := false,
    SecurityFlags := ⟨false, false, false, false, false⟩,
    Pods := [⟨"a", "default", "c0"⟩, ⟨"b", "default", "c0"⟩],
    CollectedAt := 0, KubeletIP := "10.0.0.1" }

/-- A scan result holding the cluster-admin probe `(*,*)` allowed. -/
def cexAdminRes : SATokenResult :=
  { Namespace := "kube-system", PodName := "p1", Container := "c1",
    ServiceAccount := "sa1", Token := "t",
    TokenInfo := ⟨"sa1", "ns1", "", none, false⟩,
    Permissions := [⟨"*", "*", true, "", ""⟩],
    SecurityFlags := {}, RiskLevel := .admin, IsClusterAdmin := true,
    Error := "" }

/-! ### Pod extractor (src/internal/client, extractSensitiveVolumes) -/

/-- A container volume mount (`types.VolumeMount`): the fields read by the
extractor. -/
structure VolumeMountSpec where
  Name : String
  MountPath : String
deriving DecidableEq, Repr

/-- `secret.secretName` volume source. -/
structure SecretVolumeSource where
  SecretName : String
deriving DecidableEq, Repr

/-- `hostPath.path` volume source. -/
structure HostPathVolumeSource where
  Path : String
deriving DecidableEq, Repr

/-- One entry of `projected.sources[]`; the extractor only tests the
serviceAccountToken source for presence. -/
structure ProjectedSource where
  ServiceAccountToken : Option Unit
  Secret : Option SecretVolumeSource
deriving DecidableEq, Repr

/-- `projected` volume source. -/
structure ProjectedVolumeSource where
  Sources : List ProjectedSource
deriving DecidableEq, Repr

/-- `types.VolumeSpec`: the volume shapes the extractor recognises. -/
structure VolumeSpec where
  Name : String
  Secret : Option SecretVolumeSource
  HostPath : Option HostPathVolumeSource
  Projected : Option ProjectedVolumeSource
deriving DecidableEq, Repr

/-- `types.ContainerSpec`: the fields read by `extractSensitiveVolumes`. -/
structure ContainerSpec where
  Name : String
  VolumeMounts : List VolumeMountSpec
deriving DecidableEq, Repr

/-- `types.SensitiveVolume`. `Typ` is the Go field `Type`; unset string
fields keep the Go zero value `""`. -/
structure SensitiveVolume where
  Name : String
  Typ : String
  SecretName : String := ""
  HostPath : String := ""
  MountPath : String := ""
deriving DecidableEq, Repr

/-- The projected-volume scan (config.go lines 428-445): first source with a
serviceAccountToken wins, else first source with a secret. -/
def projectedSV (name : String) : List ProjectedSource → Option SensitiveVolume
  | [] => none
  | src :: rest =>
    if src.ServiceAccountToken.isSome then
      some { Name := name, Typ := "projected-sa-token" }
    else
      match src.Secret with
      | some s =>
        some { Name := name, Typ := "projected-secret", SecretName := s.SecretName }
      | none => projectedSV name rest

/-- The volume-shape dispatch of `extractSensitiveVolumes`
(config.go lines 413-446). -/
def sensitiveVolumeOf (v : VolumeSpec) : Option SensitiveVolume :=
  match v.Secret with
  | some s => some { Name := v.Name, Typ := "secret", SecretName := s.SecretName }
  | none =>
    match v.HostPath with
    | some h => some { Name := v.Name, Typ := "hostPath", HostPath := h.Path }
    | none =>
      match v.Projected with
      | some proj => projectedSV v.Name proj.Sources
      | none => none

/-- Go map assignment `mountPaths[vm.Name] = vm.MountPath`: replace in place
when present, append otherwise (last write wins). -/
def insertMP : List (String × String) → String → String → List (String × String)
  | [], k, v => [(k, v)]
  | (k', v') :: rest, k, v =>
    if k' = k then (k, v) :: rest else (k', v') :: insertMP rest k v

/-- All container volume mounts, in container order then mount order
(the nested loops of config.go lines 405-410). -/
def allMounts (containers : List ContainerSpec) : List VolumeMountSpec :=
  (containers.map fun c => c.VolumeMounts).flatten

/-- The volume-name → mount-path map of `extractSensitiveVolumes`
(config.go lines 405-410). -/
def buildMountPaths (containers : List ContainerSpec) : List (String × String) :=
  (allMounts containers).foldl (fun m vm => insertMP m vm.Name vm.MountPath) []

/-- The mount path of the last volume mount with the given name, across all
containers in order — the value the Go map ends up holding. -/
def lastMatch (name : String) : List VolumeMountSpec → Option String
  | [] => none
  | vm :: rest =>
    match lastMatch name rest with
    | some mp => some mp
    | none => if vm.Name == name then some vm.MountPath else none

/-- `extractSensitiveVolumes` (config.go lines 401-457). -/
def extractSensitiveVolumes (volumes : List VolumeSpec)
    (containers : List ContainerSpec) : List SensitiveVolume :=
  let mountPaths := buildMountPaths containers
  volumes.filterMap fun v =>
    (sensitiveVolumeOf v).map fun sv =>
      match mountPaths.lookup v.Name with
      | some mp => { sv with MountPath := mp }
      | none => sv

/-- Volumes for the C7 counterexample: one secret volume named "v". -/
def cexVolumes : List VolumeSpec :=
  [{ Name := "v", Secret := some ⟨"s"⟩, HostPath := none, Projected := none }]

/-- Containers for the C7 counterexample: c1 mounts "v" at "/a", c2 mounts
the same volume at "/b". -/
def cexContainers : List ContainerSpec :=
  [{ Name := "c1", VolumeMounts := [⟨"v", "/a"⟩] },
   { Name := "c2", VolumeMounts := [⟨"v", "/b"⟩] }]

/-! ### Pod security flags (src/internal/security/pod.go) -/

/-- `types.PodRecord`: the scalar fields plus the JSON-string columns the
flag checks read (timestamps and the DB id are elided). -/
structure PodRecord where
  Name : String
  Namespace : String
  UID : String
  NodeName : String
  PodIP : String
  HostIP : String
  Phase : String
  ServiceAccount : String
  Containers : String
  Volumes : String
  SecurityContext : String
  KubeletIP : String
deriving DecidableEq, Repr

/-- `security.CheckPrivileged` (pod.go lines 33-35). -/
def CheckPrivileged (containersJSON : String) : Bool :=
  containsSubstr containersJSON "\"privileged\":true"

/-- `security.CheckAllowPrivilegeEscalation` (pod.go lines 38-40). -/
def CheckAllowPrivilegeEscalation (containersJSON : String) : Bool :=
  containsSubstr containersJSON "\"allowPrivilegeEscalation\":true"

/-- `security.CheckHostPath` (pod.go lines 43-45). -/
def CheckHostPath (volumesJSON : String) : Bool :=
  containsSubstr volumesJSON "\"type\":\"hostPath\""

/-- `security.CheckSecretMount` (pod.go lines 48-51). -/
def CheckSecretMount (volumesJSON : String) : Bool :=
  containsSubstr volumesJSON "\"type\":\"secret\"" ||
    containsSubstr volumesJSON "\"type\":\"projected-secret\""

/-- `security.GetSecurityFlags` (pod.go lines 67-75). The Go struct literal
sets only four fields; `HasSATokenMount` keeps the zero value `false`
(mirrored by the structure default). -/
def GetSecurityFlags (record : PodRecord) : SecurityFlags :=
  { Privileged := CheckPrivileged record.Containers
    AllowPrivilegeEscalation := CheckAllowPrivilegeEscalation record.Containers
    HasHostPath := CheckHostPath record.Volumes
    HasSecretMount := CheckSecretMount record.Volumes }

/-- A pod record whose volumes JSON contains a projected-sa-token volume. -/
def cexPodRecord : PodRecord :=
  { Name := "p", Namespace := "ns", UID := "u", NodeName := "n",
    PodIP := "10.0.0.2", HostIP := "10.0.0.3", Phase := "Running",
    ServiceAccount := "sa",
    Containers := "name:c0",
    Volumes := "\"type\":\"projected-sa-token\"",
    SecurityContext := "", KubeletIP := "10.0.0.3" }

/-! ### Result repository (src/internal/db/serviceaccounts.go, SaveBatch) -/

/-- SQLite `INSERT OR REPLACE` into `service_accounts` with
`UNIQUE(name, namespace)`: replace the row with the same key, else insert. -/
def insertRow :
    List ((String × String) × ServiceAccountRecord) → ServiceAccountRecord →
      List ((String × String) × ServiceAccountRecord)
  | [], record => [((record.Namespace, record.Name), record)]
  | (k, v) :: rest, record =>
    if k = (record.Namespace, record.Name) then
      ((record.Namespace, record.Name), record) :: rest
    else (k, v) :: insertRow rest record

/-- The statement loop of `SaveBatch` (serviceaccounts.go lines 61-74),
executed against the transaction's staged state. `execFails` models which
`stmt.Exec` calls return an error. -/
def saveLoop (execFails : ServiceAccountRecord → Bool) :
    List ((String × String) × ServiceAccountRecord) →
      List ServiceAccountRecord → Nat →
      List ((String × String) × ServiceAccountRecord) × Nat × Option String
  | staged, [], saved => (staged, saved, none)
  | staged, record :: rest, saved =>
    if execFails record then (staged, saved, some "save SA failed")
    else saveLoop execFails (insertRow staged record) rest (saved + 1)

/-- `SaveBatch` (serviceaccounts.go lines 42-81): begin a transaction,
prepare the statement, run the loop, commit; the deferred `tx.Rollback()`
discards the staged writes on every path that does not reach a successful
commit. Returns the new repository state, the `saved` counter and the error. -/
def SaveBatch (beginFails prepareFails commitFails : Bool)
    (execFails : ServiceAccountRecord → Bool)
    (store : List ((String × String) × ServiceAccountRecord))
    (records : List ServiceAccountRecord) :
    List ((String × String) × ServiceAccountRecord) × Nat × Option String :=
  if beginFails then (store, 0, some "begin tx failed")
  else if prepareFails then (store, 0, some "prepare stmt failed")
  else
    match saveLoop execFails store records 0 with
    | (staged, saved, none) =>
      if commitFails then (store, saved, some "commit tx failed")
      else (staged, saved, none)
    | (_, saved, some e) => (store, saved, some e)

/-- A record whose statement execution succeeds in the C10 witness. -/
def wrecOK : ServiceAccountRecord :=
  { Name := "good", Namespace := "ns", Token := "t1",
    TokenExpiration := none, IsExpired := false, RiskLevel := "LOW",
    Permissions := [], IsClusterAdmin := false,
    SecurityFlags := ⟨false, false, false, false, false⟩,
    Pods := [], CollectedAt := 0, KubeletIP := "ip" }

/-- A record whose statement execution fails in the C10 witness. -/
def wrecBad : ServiceAccountRecord :=
  { wrecOK with Name := "bad", Token := "t2" }

theorem any_adminW_iff (ps : List PermissionCheck) :
    ps.any adminW = true ↔ ∃ p ∈ ps, AdminProbe p := by
  simp [List.any_eq_true, adminW, AdminProbe, Bool.and_eq_true, and_assoc]

theorem any_critW_iff (ps : List PermissionCheck) :
    ps.any critW = true ↔ ∃ p ∈ ps, CriticalProbe p := by
  simp [List.any_eq_true, critW, CriticalProbe, Bool.and_eq_true, Bool.or_eq_true]

theorem any_highW_iff (ps : List PermissionCheck) :
    ps.any highW = true ↔ ∃ p ∈ ps, HighProbe p := by
  simp [List.any_eq_true, highW, HighProbe, Bool.and_eq_true]

theorem any_medW_iff (ps : List PermissionCheck) :
    ps.any medW = true ↔ ∃ p ∈ ps, MediumProbe p := by
  simp [List.any_eq_true, medW, MediumProbe, Bool.and_eq_true]

theorem any_allowed_iff (ps : List PermissionCheck) :
    (ps.any fun p => p.allowed) = true ↔ ∃ p ∈ ps, p.allowed = true := by
  simp [List.any_eq_true]

theorem calc_eq_admin_iff (ps : List PermissionCheck) :
    CalculateRiskLevel ps = .admin ↔ ps.any adminW = true := by
  unfold CalculateRiskLevel
  split_ifs with h1 h2 h3 h4 h5 <;> simp_all

theorem calc_eq_admin_iff_isClusterAdmin (ps : List PermissionCheck) :
    CalculateRiskLevel ps = .admin ↔ IsClusterAdmin ps = true := by
  rw [calc_eq_admin_iff]
  rfl

theorem calc_eq_crit_iff (ps : List PermissionCheck) :
    CalculateRiskLevel ps = .critical ↔
      (ps.any adminW = false ∧ ps.any critW = true) := by
  unfold CalculateRiskLevel
  split_ifs with h1 h2 h3 h4 h5 <;> simp_all

theorem calc_eq_high_iff (ps : List PermissionCheck) :
    CalculateRiskLevel ps = .high ↔
      (ps.any adminW = false ∧ ps.any critW = false ∧ ps.any highW = true) := by
  unfold CalculateRiskLevel
  split_ifs with h1 h2 h3 h4 h5 <;> simp_all

theorem calc_eq_med_iff (ps : List PermissionCheck) :
    CalculateRiskLevel ps = .medium ↔
      (ps.any adminW = false ∧ ps.any critW = false ∧ ps.any highW = false ∧
        ps.any medW = true) := by
  unfold CalculateRiskLevel
  split_ifs with h1 h2 h3 h4 h5 <;> simp_all

theorem calc_eq_low_iff (ps : List PermissionCheck) :
    CalculateRiskLevel ps = .low ↔
      (ps.any adminW = false ∧ ps.any critW = false ∧ ps.any highW = false ∧
        ps.any medW = false ∧ (ps.any fun p => p.allowed) = true) := by
  unfold CalculateRiskLevel
  split_ifs with h1 h2 h3 h4 h5 <;> simp_all

theorem calc_eq_none_iff (ps : List PermissionCheck) :
    CalculateRiskLevel ps = .riskNone ↔ (ps.any fun p => p.allowed) = false := by
  have hca : ∀ p, adminW p = true → p.allowed = true := by
    intro p hp
    simp [adminW, Bool.and_eq_true] at hp
    exact hp.1.1
  have hcc : ∀ p, critW p = true → p.allowed = true := by
    intro p hp
    simp [critW, Bool.and_eq_true] at hp
    exact hp.1
  have hch : ∀ p, highW p = true → p.allowed = true := by
    intro p hp
    simp [highW, Bool.and_eq_true] at hp
    exact hp.1
  have hcm : ∀ p, medW p = true → p.allowed = true := by
    intro p hp
    simp [medW, Bool.and_eq_true] at hp
    exact hp.1
  unfold CalculateRiskLevel
  split_ifs with h1 h2 h3 h4 h5 <;>
    simp_all [List.any_eq_true] <;>
    first
    | (obtain ⟨p, hp, hw⟩ := h1; exact ⟨p, hp, hca p hw⟩)
    | (obtain ⟨p, hp, hw⟩ := h2; exact ⟨p, hp, hcc p hw⟩)
    | (obtain ⟨p, hp, hw⟩ := h3; exact ⟨p, hp, hch p hw⟩)
    | (obtain ⟨p, hp, hw⟩ := h4; exact ⟨p, hp, hcm p hw⟩)

/-- **C1** — The risk classifier follows the six-step first-match decision
order on the allowed subset of permission probes: ADMIN exactly on an allowed
wildcard resource+verb probe; else CRITICAL exactly on a CRITICAL-table match
(resource with "/subresource" appended when present) or wildcard resource;
else HIGH from the HIGH table; else MEDIUM from the MEDIUM table; else LOW
when any probe is allowed; else NONE. -/
theorem calculateRiskLevel_decision_order (ps : List PermissionCheck) :
    (CalculateRiskLevel ps = .admin ↔ ∃ p ∈ ps, AdminProbe p) ∧
    (CalculateRiskLevel ps = .critical ↔
      ((¬ ∃ p ∈ ps, AdminProbe p) ∧ ∃ p ∈ ps, CriticalProbe p)) ∧
    (CalculateRiskLevel ps = .high ↔
      ((¬ ∃ p ∈ ps, AdminProbe p) ∧ (¬ ∃ p ∈ ps, CriticalProbe p) ∧
        ∃ p ∈ ps, HighProbe p)) ∧
    (CalculateRiskLevel ps = .medium ↔
      ((¬ ∃ p ∈ ps, AdminProbe p) ∧ (¬ ∃ p ∈ ps, CriticalProbe p) ∧
        (¬ ∃ p ∈ ps, HighProbe p) ∧ ∃ p ∈ ps, MediumProbe p)) ∧
    (CalculateRiskLevel ps = .low ↔
      ((¬ ∃ p ∈ ps, AdminProbe p) ∧ (¬ ∃ p ∈ ps, CriticalProbe p) ∧
        (¬ ∃ p ∈ ps, HighProbe p) ∧ (¬ ∃ p ∈ ps, MediumProbe p) ∧
        ∃ p ∈ ps, p.allowed = true)) ∧
    (CalculateRiskLevel ps = .riskNone ↔ ¬ ∃ p ∈ ps, p.allowed = true) := by
  refine ⟨?_, ?_, ?_, ?_, ?_, ?_⟩
  · rw [calc_eq_admin_iff, any_adminW_iff]
  · rw [calc_eq_crit_iff]
    rw [← any_adminW_iff, ← any_critW_iff]
    simp [Bool.not_eq_true]
  · rw [calc_eq_high_iff]
    rw [← any_adminW_iff, ← any_critW_iff, ← any_highW_iff]
    simp [Bool.not_eq_true]
  · rw [calc_eq_med_iff]
    rw [← any_adminW_iff, ← any_critW_iff, ← any_highW_iff, ← any_medW_iff]
    simp [Bool.not_eq_true]
  · rw [calc_eq_low_iff]
    rw [← any_adminW_iff, ← any_critW_iff, ← any_highW_iff, ← any_medW_iff,
      ← any_allowed_iff]
    simp [Bool.not_eq_true]
  · rw [calc_eq_none_iff, ← any_allowed_iff]
    simp [Bool.not_eq_true]

theorem rank_le_five (l : RiskLevel) : RiskLevelOrder l ≤ 5 := by
  cases l <;> simp [RiskLevelOrder]

theorem rank_le_one_of_crit (ps : List PermissionCheck)
    (h : ps.any critW = true) :
    RiskLevelOrder (CalculateRiskLevel ps) ≤ 1 := by
  unfold CalculateRiskLevel
  split_ifs <;> simp_all [RiskLevelOrder]

theorem rank_le_two_of_high (ps : List PermissionCheck)
    (h : ps.any highW = true) :
    RiskLevelOrder (CalculateRiskLevel ps) ≤ 2 := by
  unfold CalculateRiskLevel
  split_ifs <;> simp_all [RiskLevelOrder]

theorem rank_le_three_of_med (ps : List PermissionCheck)
    (h : ps.any medW = true) :
    RiskLevelOrder (CalculateRiskLevel ps) ≤ 3 := by
  unfold CalculateRiskLevel
  split_ifs <;> simp_all [RiskLevelOrder]

theorem rank_le_four_of_allowed (ps : List PermissionCheck)
    (h : (ps.any fun p => p.allowed) = true) :
    RiskLevelOrder (CalculateRiskLevel ps) ≤ 4 := by
  unfold CalculateRiskLevel
  split_ifs <;> simp_all [RiskLevelOrder]

theorem any_transfer (A B : List PermissionCheck) (w : PermissionCheck → Bool)
    (hw : ∀ p, w p = true → p.allowed = true)
    (hAB : ∀ p ∈ A, p.allowed = true → p ∈ B)
    (h : A.any w = true) : B.any w = true := by
  rw [List.any_eq_true] at h ⊢
  obtain ⟨p, hp, hwp⟩ := h
  exact ⟨p, hAB p hp (hw p hwp), hwp⟩

/-- **C3** — The classifier is monotone in the evidence: when B's allowed
probes are a superset of A's allowed probes, the risk rank of B (under
ADMIN=0 … NONE=5) is at most that of A. -/
theorem calculateRiskLevel_monotone (A B : List PermissionCheck)
    (hAB : ∀ p ∈ A, p.allowed = true → p ∈ B) :
    RiskLevelOrder (CalculateRiskLevel B) ≤ RiskLevelOrder (CalculateRiskLevel A) := by
  have hadm : ∀ p, adminW p = true → p.allowed = true := by
    intro p hp
    simp [adminW, Bool.and_eq_true] at hp
    exact hp.1.1
  have hcrit : ∀ p, critW p = true → p.allowed = true := by
    intro p hp
    simp [critW, Bool.and_eq_true] at hp
    exact hp.1
  have hhigh : ∀ p, highW p = true → p.allowed = true := by
    intro p hp
    simp [highW, Bool.and_eq_true] at hp
    exact hp.1
  have hmed : ∀ p, medW p = true → p.allowed = true := by
    intro p hp
    simp [medW, Bool.and_eq_true] at hp
    exact hp.1
  by_cases h0 : A.any adminW = true
  · have hB : B.any adminW = true := any_transfer A B adminW hadm hAB h0
    have : CalculateRiskLevel B = .admin := by
      unfold CalculateRiskLevel
      simp [hB]
    rw [this]
    simp [RiskLevelOrder]
  · by_cases h1 : A.any critW = true
    · have hB : B.any critW = true := any_transfer A B critW hcrit hAB h1
      have hA : CalculateRiskLevel A = .critical := by
        unfold CalculateRiskLevel
        rw [if_neg h0, if_pos h1]
      rw [hA]
      exact rank_le_one_of_crit B hB
    · by_cases h2 : A.any highW = true
      · have hB : B.any highW = true := any_transfer A B highW hhigh hAB h2
        have hA : CalculateRiskLevel A = .high := by
          unfold CalculateRiskLevel
          rw [if_neg h0, if_neg h1, if_pos h2]
        rw [hA]
        exact rank_le_two_of_high B hB
      · by_cases h3 : A.any medW = true
        · have hB : B.any medW = true := any_transfer A B medW hmed hAB h3
          have hA : CalculateRiskLevel A = .medium := by
            unfold CalculateRiskLevel
            rw [if_neg h0, if_neg h1, if_neg h2, if_pos h3]
          rw [hA]
          exact rank_le_three_of_med B hB
        · by_cases h4 : (A.any fun p => p.allowed) = true
          · have hB : (B.any fun p => p.allowed) = true :=
              any_transfer A B (fun p => p.allowed) (fun _ hp => hp) hAB h4
            have hA : CalculateRiskLevel A = .low := by
              unfold CalculateRiskLevel
              rw [if_neg h0, if_neg h1, if_neg h2, if_neg h3, if_pos h4]
            rw [hA]
            exact rank_le_four_of_allowed B hB
          · have hA : CalculateRiskLevel A = .riskNone := by
              unfold CalculateRiskLevel
              rw [if_neg h0, if_neg h1, if_neg h2, if_neg h3, if_neg h4]
            rw [hA]
            exact rank_le_five _

/-- Witness for C3 at a concrete input: A allows only `pods:list`;
B additionally allows `secrets:get` (a CRITICAL-table entry), so the rank
drops from LOW (4) to CRITICAL (1). -/
theorem calculateRiskLevel_monotone_witness :
    (∀ p ∈ [PermissionCheck.mk "pods" "list" true "" ""],
      p.allowed = true →
        p ∈ [PermissionCheck.mk "pods" "list" true "" "",
             PermissionCheck.mk "secrets" "get" true "" ""]) ∧
    RiskLevelOrder (CalculateRiskLevel
        [PermissionCheck.mk "pods" "list" true "" "",
         PermissionCheck.mk "secrets" "get" true "" ""]) ≤
      RiskLevelOrder (CalculateRiskLevel
        [PermissionCheck.mk "pods" "list" true "" ""]) :=
  ⟨by decide,
   calculateRiskLevel_monotone
     [PermissionCheck.mk "pods" "list" true "" ""]
     [PermissionCheck.mk "pods" "list" true "" "",
      PermissionCheck.mk "secrets" "get" true "" ""]
     (by decide)⟩

/-- **C4** — For every decoded JWT payload with no `kubernetes.io` claim and
`sub = "system:serviceaccount:bar:foo"`, parsing yields
serviceAccount `"foo"` and namespace `"bar"`; and whenever the `exp` claim is
a past Unix timestamp, the parsed `TokenInfo` has `isExpired = true`
(`isExpired` is `now > exp`). -/
theorem tokenParse_sub_fallback_and_expiry :
    (∀ (now : Int) (claims : List (String × Json)),
      claims.lookup "kubernetes.io" = none →
      claims.lookup "sub" = some (.str "system:serviceaccount:bar:foo") →
      (parseClaims now claims).ServiceAccount = "foo" ∧
        (parseClaims now claims).Namespace = "bar") ∧
    (∀ (now : Int) (claims : List (String × Json)) (e : Int),
      claims.lookup "exp" = some (.num e) →
      e < now →
      (parseClaims now claims).IsExpired = true) := by
  constructor
  · intro now claims hk8s hsub
    simp only [parseClaims, hk8s, hsub]
    constructor <;> decide
  · intro now claims e hexp hlt
    simp only [parseClaims, hexp]
    simp [hlt]

/-- Witness for C4 at concrete inputs: a payload with only a `sub` claim
parses to SA `foo` in namespace `bar`, and a payload whose `exp` (100) is
before `now` (200) is marked expired. -/
theorem tokenParse_sub_fallback_and_expiry_witness :
    ((List.lookup "kubernetes.io"
        [("sub", Json.str "system:serviceaccount:bar:foo")] = none) ∧
      (parseClaims 200 [("sub", Json.str "system:serviceaccount:bar:foo")]).ServiceAccount = "foo" ∧
      (parseClaims 200 [("sub", Json.str "system:serviceaccount:bar:foo")]).Namespace = "bar") ∧
    ((100 : Int) < 200 ∧
      (parseClaims 200 [("exp", Json.num 100),
        ("sub", Json.str "system:serviceaccount:ns1:svc1")]).IsExpired = true) :=
  ⟨⟨by rfl,
    tokenParse_sub_fallback_and_expiry.1 200
      [("sub", Json.str "system:serviceaccount:bar:foo")] (by rfl) (by rfl)⟩,
   ⟨by decide,
    tokenParse_sub_fallback_and_expiry.2 200
      [("exp", Json.num 100), ("sub", Json.str "system:serviceaccount:ns1:svc1")]
      100 (by rfl) (by decide)⟩⟩

theorem readExecStep_stdout (decode : String → Option ExecStatus)
    (acc : ExecResult) (m : List Nat) :
    (readExecStep decode acc m).Stdout =
      acc.Stdout ++ (if m.head? == some 1 then byteStr m.tail else "") := by
  match m with
  | [] => simp [readExecStep]
  | ch :: rest =>
    simp only [readExecStep, List.head?, List.tail]
    by_cases h1 : ch = 1
    · simp [h1]
    · by_cases h2 : ch = 2
      · simp [h1, h2]
      · by_cases h3 : ch = 3
        · subst h3
          cases hdec : decode (byteStr rest) with
          | none => simp [h1, h2, hdec]
          | some st =>
            by_cases hs : st.Status ≠ "Success" <;>
              simp [h1, h2, hdec, hs]
        · simp [h1, h2, h3, Option.some.injEq]

theorem readExecStep_stderr (decode : String → Option ExecStatus)
    (acc : ExecResult) (m : List Nat) :
    (readExecStep decode acc m).Stderr =
      acc.Stderr ++ (if m.head? == some 2 then byteStr m.tail else "") := by
  match m with
  | [] => simp [readExecStep]
  | ch :: rest =>
    simp only [readExecStep, List.head?, List.tail]
    by_cases h1 : ch = 1
    · simp [h1]
    · by_cases h2 : ch = 2
      · simp [h1, h2]
      · by_cases h3 : ch = 3
        · subst h3
          cases hdec : decode (byteStr rest) with
          | none => simp [h1, h2, hdec]
          | some st =>
            by_cases hs : st.Status ≠ "Success" <;>
              simp [h1, h2, hdec, hs]
        · simp [h1, h2, h3, Option.some.injEq]

theorem foldl_readExecStep_stdout (decode : String → Option ExecStatus)
    (frames : List (List Nat)) (acc : ExecResult) :
    (frames.foldl (readExecStep decode) acc).Stdout =
      acc.Stdout ++ channelConcat 1 frames := by
  induction frames generalizing acc with
  | nil => simp [channelConcat]
  | cons m rest ih =>
    rw [List.foldl_cons, ih, readExecStep_stdout]
    simp [channelConcat, String.append_assoc]

theorem foldl_readExecStep_stderr (decode : String → Option ExecStatus)
    (frames : List (List Nat)) (acc : ExecResult) :
    (frames.foldl (readExecStep decode) acc).Stderr =
      acc.Stderr ++ channelConcat 2 frames := by
  induction frames generalizing acc with
  | nil => simp [channelConcat]
  | cons m rest ih =>
    rw [List.foldl_cons, ih, readExecStep_stderr]
    simp [channelConcat, String.append_assoc]

/-- **C5** — For every non-interactive exec read loop, the returned stdout is
the concatenation, in frame-arrival order, of the payloads (bytes after the
leading channel byte) of all frames whose first byte is 1, and stderr likewise
for channel byte 2; in particular for frames
`[0x01,"he"], [0x02,"err"], [0x01,"llo"]` followed by a normal close, the
result is stdout `"hello"`, stderr `"err"`, and no error. -/
theorem readExecOutput_demultiplex :
    (∀ (decode : String → Option ExecStatus) (frames : List (List Nat))
        (close : CloseKind),
      (readExecOutput decode frames close).Stdout = channelConcat 1 frames ∧
        (readExecOutput decode frames close).Stderr = channelConcat 2 frames) ∧
    readExecOutput (fun _ => none)
        [[1, 104, 101], [2, 101, 114, 114], [1, 108, 108, 111]]
        .normalClosure = ⟨"hello", "err", ""⟩ := by
  constructor
  · intro decode frames close
    have hout := foldl_readExecStep_stdout decode frames ⟨"", "", ""⟩
    have herr := foldl_readExecStep_stderr decode frames ⟨"", "", ""⟩
    cases close with
    | normalClosure => exact ⟨by simpa using hout, by simpa using herr⟩
    | goingAway => exact ⟨by simpa using hout, by simpa using herr⟩
    | readErr msg =>
      simp only [readExecOutput]
      split <;> exact ⟨by simpa using hout, by simpa using herr⟩
  · decide

theorem lookup_updateA_self {α : Type} (m : List (String × α)) (k : String)
    (v w : α) (h : m.lookup k = some w) : (updateA m k v).lookup k = some v := by
  induction m with
  | nil => simp [List.lookup] at h
  | cons p rest ih =>
    obtain ⟨k', v'⟩ := p
    by_cases hk : k' = k
    · subst hk
      simp [updateA, List.lookup]
    · have hne : (k == k') = false := by
        simp [Ne.symm hk]
      simp only [List.lookup, hne] at h
      simp [updateA, hk, List.lookup, hne, ih h]

theorem lookup_updateA_ne {α : Type} (m : List (String × α)) (k k' : String)
    (v : α) (h : k' ≠ k) : (updateA m k v).lookup k' = m.lookup k' := by
  induction m with
  | nil => simp [updateA]
  | cons p rest ih =>
    obtain ⟨k₀, v₀⟩ := p
    by_cases hk : k₀ = k
    · subst hk
      have hne : (k' == k₀) = false := by simp [h]
      simp [updateA, List.lookup, hne]
    · simp [updateA, hk, List.lookup, ih]

theorem lookup_append_single_ne {α : Type} (m : List (String × α))
    (k k' : String) (v : α) (h : k' ≠ k) :
    (m ++ [(k, v)]).lookup k' = m.lookup k' := by
  induction m with
  | nil =>
    have hne : (k' == k) = false := by simp [h]
    simp [List.lookup, hne]
  | cons p rest ih =>
    obtain ⟨k₀, v₀⟩ := p
    by_cases hk : k' = k₀
    · subst hk
      simp [List.lookup]
    · have hne : (k' == k₀) = false := by simp [hk]
      simp [List.lookup, hne, ih]

theorem lookup_append_single_self {α : Type} (m : List (String × α))
    (k : String) (v : α) (h : m.lookup k = none) :
    (m ++ [(k, v)]).lookup k = some v := by
  induction m with
  | nil => simp [List.lookup]
  | cons p rest ih =>
    obtain ⟨k₀, v₀⟩ := p
    by_cases hk : k = k₀
    · subst hk
      simp [List.lookup] at h
    · have hne : (k == k₀) = false := by simp [hk]
      simp only [List.lookup, hne] at h
      simp [List.lookup, hne, ih h]

theorem lookup_foldl_saveStep (kubeletIP : String) (now : Int)
    (results : List SATokenResult) :
    ∀ (m : List (String × ServiceAccountRecord)) (key : String),
      ((results.foldl (saveStep kubeletIP now) m).lookup key) =
        match m.lookup key, results.filter (matchKey key) with
        | some rec, ms => some (withPods rec (rec.Pods ++ ms.map podInfoOf))
        | none, [] => none
        | none, r :: rs =>
          some (withPods (mkRecord kubeletIP now r) (podInfoOf r :: rs.map podInfoOf)) := by
  induction results with
  | nil =>
    intro m key
    cases h : m.lookup key <;> simp [h, withPods]
  | cons r rs ih =>
    intro m key
    rw [List.foldl_cons]
    rw [ih (saveStep kubeletIP now m r) key]
    by_cases hv : validResult r
    · by_cases hk : resultKey r = key
      · have hmatch : matchKey key r = true := by
          simp [matchKey, hv, hk]
        cases hm : m.lookup (resultKey r) with
        | some existing =>
          have hstep : (saveStep kubeletIP now m r).lookup key =
              some (withPods existing (existing.Pods ++ [podInfoOf r])) := by
            rw [← hk]
            simp only [saveStep, hv, if_true, hm]
            exact lookup_updateA_self m (resultKey r) _ existing hm
          rw [hstep, hk] at *
          rw [hm]
          simp [List.filter_cons, hmatch, withPods, List.append_assoc]
        | none =>
          have hstep : (saveStep kubeletIP now m r).lookup key =
              some (mkRecord kubeletIP now r) := by
            rw [← hk]
            simp only [saveStep, hv, if_true, hm]
            exact lookup_append_single_self m (resultKey r) _ hm
          rw [hstep, hk] at *
          rw [hm]
          simp [List.filter_cons, hmatch, withPods, mkRecord]
      · have hmatch : matchKey key r = false := by
          simp [matchKey, hv, hk]
        have hstep : (saveStep kubeletIP now m r).lookup key = m.lookup key := by
          simp only [saveStep, hv, if_true]
          cases hm : m.lookup (resultKey r) with
          | some existing =>
            exact lookup_updateA_ne m (resultKey r) key _ (fun h => hk h.symm)
          | none =>
            exact lookup_append_single_ne m (resultKey r) key _ (fun h => hk h.symm)
        rw [hstep]
        simp [List.filter_cons, hmatch]
    · have hstep : saveStep kubeletIP now m r = m := by
        simp [saveStep, hv]
      have hmatch : matchKey key r = false := by
        simp [matchKey, hv]
      rw [hstep]
      simp [List.filter_cons, hmatch]

/-- **C6** — Scan results are coalesced per `(token namespace, serviceAccount)`
key: the first-encountered result supplies the SA-level fields and every
subsequent result for the same key only appends its pod entry, so two pods
mounting the same SA token yield exactly one record listing both pods. -/
theorem saveResults_coalesces_per_key :
    (∀ (kubeletIP : String) (now : Int) (results : List SATokenResult)
        (key : String),
      (saveResults kubeletIP now results).lookup key =
        match results.filter (matchKey key) with
        | [] => none
        | r :: rs =>
          some (withPods (mkRecord kubeletIP now r)
            (podInfoOf r :: rs.map podInfoOf))) ∧
    saveResults "10.0.0.1" 0 [cexResA, cexResB] =
      [("default/shared", cexRecShared)] := by
  constructor
  · intro ip now results key
    rw [saveResults, lookup_foldl_saveStep]
    cases hfilter : results.filter (matchKey key) <;> simp [List.lookup]
  · decide

theorem riskLevelString_eq_admin_iff (l : RiskLevel) :
    riskLevelString l = "ADMIN" ↔ l = .admin := by
  cases l <;> decide

/-- **C2** — For every ServiceAccountRecord produced by a scan,
`isClusterAdmin = true ⇔ riskLevel = "ADMIN"`: the cluster-admin flag is set
exactly when some allowed probe has resource `"*"` and verb `"*"`, and that
same condition is the only way the classifier assigns the ADMIN tier. -/
theorem record_isClusterAdmin_iff_riskAdmin :
    (∀ ps : List PermissionCheck,
      IsClusterAdmin ps = true ↔ ∃ p ∈ ps, AdminProbe p) ∧
    (∀ ps : List PermissionCheck,
      CalculateRiskLevel ps = .admin ↔ IsClusterAdmin ps = true) ∧
    (∀ (kubeletIP : String) (now : Int) (results : List SATokenResult)
        (key : String) (rec : ServiceAccountRecord),
      (∀ r ∈ results,
        r.IsClusterAdmin = (computeRisk r.Permissions).1 ∧
          r.RiskLevel = (computeRisk r.Permissions).2) →
      (saveResults kubeletIP now results).lookup key = some rec →
      (rec.IsClusterAdmin = true ↔ rec.RiskLevel = "ADMIN")) := by
  refine ⟨?_, calc_eq_admin_iff_isClusterAdmin, ?_⟩
  · intro ps
    exact any_adminW_iff ps
  · intro ip now results key rec hWF hlookup
    rw [saveResults, lookup_foldl_saveStep] at hlookup
    cases hfilter : results.filter (matchKey key) with
    | nil =>
      rw [hfilter] at hlookup
      simp [List.lookup] at hlookup
    | cons r rs =>
      rw [hfilter] at hlookup
      simp only [List.lookup, Option.some.injEq] at hlookup
      subst hlookup
      have hrmem : r ∈ results := by
        have hmem : r ∈ results.filter (matchKey key) := by
          rw [hfilter]
          exact List.mem_cons_self r rs
        exact List.mem_of_mem_filter hmem
      obtain ⟨hIC, hRL⟩ := hWF r hrmem
      simp only [computeRisk] at hIC hRL
      cases hb : r.IsClusterAdmin with
      | true => simp [withPods, mkRecord, hb]
      | false =>
        have hICfalse : IsClusterAdmin r.Permissions = false := by
          rw [← hIC, hb]
        have hRLcalc : r.RiskLevel = CalculateRiskLevel r.Permissions := by
          rw [hRL, hICfalse]
          simp
        simp only [withPods, mkRecord, hb, if_false, Bool.false_eq_true,
          false_iff]
        intro hAdm
        rw [hRLcalc, riskLevelString_eq_admin_iff,
          calc_eq_admin_iff_isClusterAdmin, hICfalse] at hAdm
        exact Bool.false_ne_true hAdm

/-- Witness for C2 at a concrete input: one cluster-admin scan result yields
a record with `isClusterAdmin = true` and `riskLevel = "ADMIN"`. -/
theorem record_isClusterAdmin_iff_riskAdmin_witness :
    (∀ r ∈ [cexAdminRes],
      r.IsClusterAdmin = (computeRisk r.Permissions).1 ∧
        r.RiskLevel = (computeRisk r.Permissions).2) ∧
    (saveResults "1.2.3.4" 5 [cexAdminRes]).lookup "ns1/sa1" =
      some (mkRecord "1.2.3.4" 5 cexAdminRes) ∧
    ((mkRecord "1.2.3.4" 5 cexAdminRes).IsClusterAdmin = true ↔
      (mkRecord "1.2.3.4" 5 cexAdminRes).RiskLevel = "ADMIN") :=
  ⟨by decide, by decide,
   record_isClusterAdmin_iff_riskAdmin.2.2 "1.2.3.4" 5 [cexAdminRes]
     "ns1/sa1" (mkRecord "1.2.3.4" 5 cexAdminRes) (by decide) (by decide)⟩

theorem lookup_insertMP_self (m : List (String × String)) (k v : String) :
    (insertMP m k v).lookup k = some v := by
  induction m with
  | nil => simp [insertMP, List.lookup]
  | cons p rest ih =>
    obtain ⟨k₀, v₀⟩ := p
    by_cases hk : k₀ = k
    · subst hk
      simp [insertMP, List.lookup]
    · have hne : (k == k₀) = false := by simp [Ne.symm hk]
      simp [insertMP, hk, List.lookup, hne, ih]

theorem lookup_insertMP_ne (m : List (String × String)) (k v k' : String)
    (h : k' ≠ k) : (insertMP m k v).lookup k' = m.lookup k' := by
  induction m with
  | nil =>
    have hne : (k' == k) = false := by simp [h]
    simp [insertMP, List.lookup, hne]
  | cons p rest ih =>
    obtain ⟨k₀, v₀⟩ := p
    by_cases hk : k₀ = k
    · subst hk
      have hne : (k' == k₀) = false := by simp [h]
      simp [insertMP, List.lookup, hne]
    · simp [insertMP, hk, List.lookup, ih]

theorem lookup_foldl_insertMP (mounts : List VolumeMountSpec) :
    ∀ (m : List (String × String)) (name : String),
      (mounts.foldl (fun m vm => insertMP m vm.Name vm.MountPath) m).lookup name =
        match lastMatch name mounts with
        | some mp => some mp
        | none => m.lookup name := by
  induction mounts with
  | nil =>
    intro m name
    simp [lastMatch]
  | cons vm rest ih =>
    intro m name
    rw [List.foldl_cons, ih]
    cases hrest : lastMatch name rest with
    | some mp => simp [lastMatch, hrest]
    | none =>
      by_cases hname : vm.Name = name
      · subst hname
        simp [lastMatch, hrest, lookup_insertMP_self]
      · have hne : (vm.Name == name) = false := by simp [hname]
        simp [lastMatch, hrest, hne,
          lookup_insertMP_ne m vm.Name vm.MountPath name (Ne.symm hname)]

theorem lookup_buildMountPaths (containers : List ContainerSpec) (name : String) :
    (buildMountPaths containers).lookup name = lastMatch name (allMounts containers) := by
  rw [buildMountPaths, lookup_foldl_insertMP]
  cases lastMatch name (allMounts containers) <;> simp [List.lookup]

theorem lastMatch_isSome_of_mem (name : String) (l : List VolumeMountSpec)
    (vm : VolumeMountSpec) (hmem : vm ∈ l) (hname : vm.Name = name) :
    ∃ mp, lastMatch name l = some mp := by
  induction l with
  | nil => cases hmem
  | cons x rest ih =>
    rw [List.mem_cons] at hmem
    cases hrest : lastMatch name rest with
    | some mp => exact ⟨mp, by simp [lastMatch, hrest]⟩
    | none =>
      rcases hmem with heq | hmem
      · subst heq
        have : (vm.Name == name) = true := by simp [hname]
        exact ⟨vm.MountPath, by simp [lastMatch, hrest, this]⟩
      · obtain ⟨mp, hmp⟩ := ih hmem
        rw [hrest] at hmp
        cases hmp

theorem projectedSV_name (name : String) (srcs : List ProjectedSource)
    (sv : SensitiveVolume) (h : projectedSV name srcs = some sv) :
    sv.Name = name := by
  induction srcs with
  | nil => simp [projectedSV] at h
  | cons src rest ih =>
    simp only [projectedSV] at h
    by_cases hsa : src.ServiceAccountToken.isSome
    · rw [if_pos hsa] at h
      cases h
      rfl
    · rw [if_neg hsa] at h
      cases hsec : src.Secret with
      | some s =>
        rw [hsec] at h
        cases h
        rfl
      | none =>
        rw [hsec] at h
        exact ih h

theorem sensitiveVolumeOf_name (v : VolumeSpec) (sv : SensitiveVolume)
    (h : sensitiveVolumeOf v = some sv) : sv.Name = v.Name := by
  simp only [sensitiveVolumeOf] at h
  cases hsec : v.Secret with
  | some s =>
    rw [hsec] at h
    cases h
    rfl
  | none =>
    rw [hsec] at h
    cases hhp : v.HostPath with
    | some hp =>
      rw [hhp] at h
      cases h
      rfl
    | none =>
      rw [hhp] at h
      cases hproj : v.Projected with
      | some proj =>
        rw [hproj] at h
        exact projectedSV_name v.Name proj.Sources sv h
      | none =>
        rw [hproj] at h
        cases h

/-- **C7 counterexample** — With two containers mounting the same secret
volume "v" at "/a" and "/b", the extractor's single entry for "v" carries
mountPath "/b" (the last mount), so container c1's mount at "/a" is not
reflected with its own mountPath: the claim as stated fails here. -/
theorem extractSensitiveVolumes_mountPath_cex :
    ((⟨"c1", [⟨"v", "/a"⟩]⟩ : ContainerSpec) ∈ cexContainers ∧
      (⟨"v", "/a"⟩ : VolumeMountSpec) ∈
        (⟨"c1", [⟨"v", "/a"⟩]⟩ : ContainerSpec).VolumeMounts ∧
      ∃ v ∈ cexVolumes, v.Name = "v" ∧ (sensitiveVolumeOf v).isSome = true) ∧
    ¬ ∃ sv ∈ extractSensitiveVolumes cexVolumes cexContainers,
        sv.Name = "v" ∧ sv.MountPath = "/a" := by
  constructor
  · exact ⟨by decide, by decide, by decide⟩
  · decide

/-- **C7 (amended)** — Every container volume mount whose volume name appears
among the pod's volumes with a secret/hostPath/projected type is reflected in
the sensitive-volume list, with the mountPath of the LAST mount of that volume
name across all containers in order (so with the mount's own path exactly when
no later mount uses the same volume name with a different path). -/
theorem extractSensitiveVolumes_mountPath_amended
    (volumes : List VolumeSpec) (containers : List ContainerSpec)
    (c : ContainerSpec) (vm : VolumeMountSpec)
    (hc : c ∈ containers) (hvm : vm ∈ c.VolumeMounts)
    (hvol : ∃ v ∈ volumes, v.Name = vm.Name ∧ (sensitiveVolumeOf v).isSome = true) :
    ∃ sv ∈ extractSensitiveVolumes volumes containers,
      sv.Name = vm.Name ∧
        some sv.MountPath = lastMatch vm.Name (allMounts containers) := by
  obtain ⟨v, hv, hname, hsome⟩ := hvol
  obtain ⟨sv0, hsv0⟩ := Option.isSome_iff_exists.mp hsome
  have hmounts : vm ∈ allMounts containers := by
    rw [allMounts, List.mem_flatten]
    exact ⟨c.VolumeMounts, List.mem_map_of_mem _ hc, hvm⟩
  obtain ⟨mp, hmp⟩ := lastMatch_isSome_of_mem vm.Name (allMounts containers) vm hmounts rfl
  have hlk : (buildMountPaths containers).lookup v.Name = some mp := by
    rw [lookup_buildMountPaths, hname, hmp]
  refine ⟨{ sv0 with MountPath := mp }, ?_, ?_, ?_⟩
  · rw [extractSensitiveVolumes]
    rw [List.mem_filterMap]
    refine ⟨v, hv, ?_⟩
    rw [hsv0]
    simp [hlk]
  · have := sensitiveVolumeOf_name v sv0 hsv0
    simp only [this, hname]
  · rw [hmp]

/-- Witness for the amended C7 theorem: a single container mounting the
secret volume "v" at "/data" is reflected with mountPath "/data". -/
theorem extractSensitiveVolumes_mountPath_amended_witness :
    ((⟨"c0", [⟨"v", "/data"⟩]⟩ : ContainerSpec) ∈
        [(⟨"c0", [⟨"v", "/data"⟩]⟩ : ContainerSpec)] ∧
      (⟨"v", "/data"⟩ : VolumeMountSpec) ∈
        (⟨"c0", [⟨"v", "/data"⟩]⟩ : ContainerSpec).VolumeMounts ∧
      ∃ v ∈ [({ Name := "v", Secret := some ⟨"s"⟩, HostPath := none,
                Projected := none } : VolumeSpec)],
        v.Name = "v" ∧ (sensitiveVolumeOf v).isSome = true) ∧
    ∃ sv ∈ extractSensitiveVolumes
        [({ Name := "v", Secret := some ⟨"s"⟩, HostPath := none,
            Projected := none } : VolumeSpec)]
        [(⟨"c0", [⟨"v", "/data"⟩]⟩ : ContainerSpec)],
      sv.Name = "v" ∧
        some sv.MountPath =
          lastMatch "v" (allMounts [(⟨"c0", [⟨"v", "/data"⟩]⟩ : ContainerSpec)]) :=
  ⟨⟨by decide, by decide, by decide⟩,
   extractSensitiveVolumes_mountPath_amended
     [({ Name := "v", Secret := some ⟨"s"⟩, HostPath := none,
         Projected := none } : VolumeSpec)]
     [(⟨"c0", [⟨"v", "/data"⟩]⟩ : ContainerSpec)]
     (⟨"c0", [⟨"v", "/data"⟩]⟩ : ContainerSpec)
     (⟨"v", "/data"⟩ : VolumeMountSpec)
     (by decide) (by decide) (by decide)⟩

/-- **C9** — `GetSecurityFlags` computes only the privileged,
allowPrivilegeEscalation, hostPath and secret-mount flags and never sets
`HasSATokenMount`, even when the record's volumes include a
projected-sa-token volume. -/
theorem getSecurityFlags_never_sets_saTokenMount :
    (∀ record : PodRecord,
      GetSecurityFlags record =
        { Privileged := CheckPrivileged record.Containers,
          AllowPrivilegeEscalation := CheckAllowPrivilegeEscalation record.Containers,
          HasHostPath := CheckHostPath record.Volumes,
          HasSecretMount := CheckSecretMount record.Volumes,
          HasSATokenMount := false }) ∧
    (GetSecurityFlags cexPodRecord).HasSATokenMount = false := by
  exact ⟨fun _ => rfl, rfl⟩

theorem saveLoop_all_ok (execFails : ServiceAccountRecord → Bool)
    (records : List ServiceAccountRecord) :
    ∀ (staged : List ((String × String) × ServiceAccountRecord)) (saved : Nat),
      (∀ r ∈ records, execFails r = false) →
      saveLoop execFails staged records saved =
        (records.foldl insertRow staged, saved + records.length, none) := by
  induction records with
  | nil =>
    intro staged saved _
    simp [saveLoop]
  | cons r rest ih =>
    intro staged saved hok
    have hr : execFails r = false := hok r (List.mem_cons_self r rest)
    rw [saveLoop, if_neg (by simp [hr])]
    rw [ih (insertRow staged r) (saved + 1)
      (fun p hp => hok p (List.mem_cons_of_mem r hp))]
    simp [List.length_cons]
    omega

theorem saveLoop_err (execFails : ServiceAccountRecord → Bool)
    (records : List ServiceAccountRecord) :
    ∀ (staged : List ((String × String) × ServiceAccountRecord)) (saved : Nat),
      (∃ r ∈ records, execFails r = true) →
      ∃ staged2 saved2 e,
        saveLoop execFails staged records saved = (staged2, saved2, some e) := by
  induction records with
  | nil =>
    intro staged saved h
    obtain ⟨r, hr, _⟩ := h
    cases hr
  | cons r rest ih =>
    intro staged saved h
    by_cases hr : execFails r = true
    · exact ⟨staged, saved, "save SA failed", by rw [saveLoop, if_pos hr]⟩
    · have hrest : ∃ x ∈ rest, execFails x = true := by
        obtain ⟨x, hx, hxf⟩ := h
        rcases List.mem_cons.mp hx with heq | hmem
        · subst heq
          exact absurd hxf hr
        · exact ⟨x, hmem, hxf⟩
      obtain ⟨s2, c2, e, he⟩ := ih (insertRow staged r) (saved + 1) hrest
      exact ⟨s2, c2, e, by rw [saveLoop, if_neg hr, he]⟩

/-- **C8** — `SaveBatch` is atomic: on every run it either succeeds with all
records of the batch upserted into the repository, or fails with an error and
leaves the repository state unchanged (the rollback discards every staged
write). -/
theorem saveBatch_atomic (beginFails prepareFails commitFails : Bool)
    (execFails : ServiceAccountRecord → Bool)
    (store : List ((String × String) × ServiceAccountRecord))
    (records : List ServiceAccountRecord) :
    ((SaveBatch beginFails prepareFails commitFails execFails store records).2.2 = none ∧
      (SaveBatch beginFails prepareFails commitFails execFails store records).1 =
        records.foldl insertRow store) ∨
    ((SaveBatch beginFails prepareFails commitFails execFails store records).2.2 ≠ none ∧
      (SaveBatch beginFails prepareFails commitFails execFails store records).1 = store) := by
  by_cases hb : beginFails
  · right
    simp [SaveBatch, hb]
  · by_cases hp : prepareFails
    · right
      simp [SaveBatch, hb, hp]
    · by_cases hall : ∀ r ∈ records, execFails r = false
      · rw [SaveBatch, if_neg hb, if_neg hp,
          saveLoop_all_ok execFails records store 0 hall]
        by_cases hc : commitFails
        · right
          simp [hc]
        · left
          simp [hc]
      · right
        have hex : ∃ r ∈ records, execFails r = true := by
          push_neg at hall
          obtain ⟨r, hr, hrf⟩ := hall
          exact ⟨r, hr, by simpa using hrf⟩
        obtain ⟨s2, c2, e, he⟩ := saveLoop_err execFails records store 0 hex
        rw [SaveBatch, if_neg hb, if_neg hp, he]
        simp

theorem saveLoop_fail_at (execFails : ServiceAccountRecord → Bool)
    (pre : List ServiceAccountRecord) :
    ∀ (staged : List ((String × String) × ServiceAccountRecord)) (saved : Nat)
      (r : ServiceAccountRecord) (post : List ServiceAccountRecord),
      (∀ p ∈ pre, execFails p = false) → execFails r = true →
      saveLoop execFails staged (pre ++ r :: post) saved =
        (pre.foldl insertRow staged, saved + pre.length, some "save SA failed") := by
  induction pre with
  | nil =>
    intro staged saved r post _ hr
    simp [saveLoop, hr]
  | cons p pre' ih =>
    intro staged saved r post hpre hr
    have hp : execFails p = false := hpre p (List.mem_cons_self p pre')
    rw [List.cons_append, saveLoop, if_neg (by simp [hp])]
    rw [ih (insertRow staged p) (saved + 1) r post
      (fun q hq => hpre q (List.mem_cons_of_mem p hq)) hr]
    simp [List.length_cons]
    omega

/-- **C10** — When `SaveBatch` fails on the i-th record (1-indexed, i ≥ 1),
the returned saved count is i-1 (the statement executions that succeeded
before the failure) together with the error, even though the transaction is
rolled back and the repository state is unchanged — so on error the returned
count can be nonzero while zero records are actually persisted. -/
theorem saveBatch_count_on_failure (commitFails : Bool)
    (execFails : ServiceAccountRecord → Bool)
    (store : List ((String × String) × ServiceAccountRecord))
    (pre : List ServiceAccountRecord) (r : ServiceAccountRecord)
    (post : List ServiceAccountRecord)
    (hpre : ∀ p ∈ pre, execFails p = false)
    (hr : execFails r = true) :
    SaveBatch false false commitFails execFails store (pre ++ r :: post) =
      (store, pre.length, some "save SA failed") := by
  rw [SaveBatch, if_neg (by simp), if_neg (by simp),
    saveLoop_fail_at execFails pre store 0 r post hpre hr]
  simp

/-- Witness for C10 at a concrete input: the batch `[wrecOK, wrecBad]` fails
on the second record, returning saved count 1 (nonzero) with an error while
the repository stays empty (zero records persisted). -/
theorem saveBatch_count_on_failure_witness :
    (∀ p ∈ [wrecOK], (fun rec => rec.Name == "bad") p = false) ∧
    (fun rec => rec.Name == "bad") wrecBad = true ∧
    SaveBatch false false false (fun rec => rec.Name == "bad") []
        ([wrecOK] ++ wrecBad :: []) =
      ([], [wrecOK].length, some "save SA failed") ∧
    [wrecOK].length ≠ 0 :=
  ⟨by decide, by decide,
   saveBatch_count_on_failure false (fun rec => rec.Name == "bad") []
     [wrecOK] wrecBad [] (by decide) (by decide),
   by decide⟩

end Kctl
